import Mathlib

/-!
Verification of `scripts/update_data.py` (TWSE margin-trading / securities-lending
merger). Shallow embedding: each Python function of the script is translated to a
Lean definition of the same name (leading underscores dropped where Lean dislikes
them); network effects are parameters (oracles supplying each candidate URL's
response), exceptions become `Except String`.
-/

set_option autoImplicit false

namespace UpdateData

/-- Python substring test `pat in hay`, on explicit character lists.
`pat = []` (empty pattern) is contained in everything, as in Python. -/
def listContains : List Char → List Char → Bool
  | hay, pat =>
    pat.isPrefixOf hay ||
      (match hay with
       | [] => false
       | _ :: t => listContains t pat)

/-- Python `pat in hay` on strings. -/
def strContains (hay pat : String) : Bool :=
  listContains hay.data pat.data

/-- Python `s.strip()`: drop whitespace from both ends (ASCII whitespace; the
data here is ASCII digits/Chinese text, so the wider Unicode set Python strips
never occurs). -/
def pyStrip (s : String) : String :=
  String.mk (((s.data.dropWhile Char.isWhitespace).reverse.dropWhile Char.isWhitespace).reverse)

/-- Python `s.upper()` (ASCII; only ever applied before searching for `"OK"`). -/
def pyUpper (s : String) : String :=
  String.mk (s.data.map Char.toUpper)

instance {ε α : Type} [DecidableEq ε] [DecidableEq α] : DecidableEq (Except ε α)
  | .error e1, .error e2 =>
    if h : e1 = e2 then isTrue (by rw [h]) else isFalse (by intro hh; injection hh; contradiction)
  | .error _, .ok _ => isFalse (by intro hh; cases hh)
  | .ok _, .error _ => isFalse (by intro hh; cases hh)
  | .ok a1, .ok a2 =>
    if h : a1 = a2 then isTrue (by rw [h]) else isFalse (by intro hh; injection hh; contradiction)

/-- The table value produced by the parsers: a header row plus string-cell rows. -/
structure Table where
  fields : List String
  rows : List (List String)
  deriving Repr, DecidableEq

/-- JSON values, as decoded by `resp.json()`. -/
inductive JVal where
  | null : JVal
  | bool : Bool → JVal
  | num : Int → JVal
  | str : String → JVal
  | arr : List JVal → JVal
  | obj : List (String × JVal) → JVal
  deriving Repr

/-- Python truthiness of a decoded JSON value (`None`, `False`, `0`, `""`, `[]`,
`{}` are falsy). -/
def pyTruthy : JVal → Bool
  | .null => false
  | .bool b => b
  | .num n => n != 0
  | .str s => s != ""
  | .arr xs => !xs.isEmpty
  | .obj kvs => !kvs.isEmpty

/-- Python single-quote character, used by `repr` of strings inside containers. -/
def pyQuote : String := String.singleton (Char.ofNat 39)

mutual

/-- Python `str(v)` for a decoded JSON value. Scalars follow CPython exactly;
for containers we render the element structure (`repr`-style brackets and
commas); fine points of CPython string escaping inside containers are not
modelled, no claim depends on them. -/
def pyStr : JVal → String
  | .null => "None"
  | .bool true => "True"
  | .bool false => "False"
  | .num n => toString n
  | .str s => s
  | .arr xs => "[" ++ pyReprList xs ++ "]"
  | .obj kvs => "\x7b" ++ pyReprObj kvs ++ "\x7d"

/-- Python `repr(v)`, as used for elements inside container `str`. -/
def pyRepr : JVal → String
  | .null => "None"
  | .bool true => "True"
  | .bool false => "False"
  | .num n => toString n
  | .str s => pyQuote ++ s ++ pyQuote
  | .arr xs => "[" ++ pyReprList xs ++ "]"
  | .obj kvs => "\x7b" ++ pyReprObj kvs ++ "\x7d"
termination_by v => sizeOf v

def pyReprList : List JVal → String
  | [] => ""
  | [x] => pyRepr x
  | x :: xs => pyRepr x ++ ", " ++ pyReprList xs
termination_by xs => sizeOf xs

def pyReprObj : List (String × JVal) → String
  | [] => ""
  | [(k, v)] => pyQuote ++ k ++ pyQuote ++ ": " ++ pyRepr v
  | (k, v) :: kvs => pyQuote ++ k ++ pyQuote ++ ": " ++ pyRepr v ++ ", " ++ pyReprObj kvs
termination_by kvs => sizeOf kvs

end

/-- A decoded top-level JSON object (`dict`); `payload.get k` is assoc lookup. -/
def Payload := List (String × JVal)

/-- Python `payload.get(k)` (returning `None` when the key is absent is modelled
by the `Option`). Dict keys are unique, so first-match lookup is dict lookup. -/
def jlookup (p : Payload) (k : String) : Option JVal :=
  match p with
  | [] => none
  | (k2, v) :: rest => if k2 = k then some v else jlookup rest k

/-- Python `a or b` on decoded values. -/
def pyOrJ (a b : JVal) : JVal :=
  if pyTruthy a then a else b

/-- `norm_cell` from `_parse_twse_json_table`: `None` becomes `""`, everything
else is `str(value).strip()`. -/
def norm_cell (v : JVal) : String :=
  match v with
  | .null => ""
  | v => pyStrip (pyStr v)

/-- Python iteration `for c in row` over a decoded JSON value: lists yield their
elements, strings their characters, dicts their keys; other values raise
`TypeError` (modelled as `none`). -/
def iterPy : JVal → Option (List JVal)
  | .arr xs => some xs
  | .str s => some (s.data.map (fun c => .str (String.singleton c)))
  | .obj kvs => some (kvs.map (fun kv => .str kv.1))
  | _ => none

/-- Iterate every row of `data`; the first non-iterable row raises. -/
def iterRows : List JVal → Option (List (List JVal))
  | [] => some []
  | r :: rs =>
    match iterPy r with
    | none => none
    | some cells =>
      match iterRows rs with
      | none => none
      | some rest => some (cells :: rest)

/-- `_parse_twse_json_table`:
`fields = payload.get("fields") or payload.get("fields1")`,
`data = payload.get("data")`; raise unless both are lists; header cells are
`str(f).strip()`, data cells go through `norm_cell`. -/
def parse_twse_json_table (p : Payload) : Except String Table :=
  let fieldsV := pyOrJ ((jlookup p "fields").getD .null) ((jlookup p "fields1").getD .null)
  let dataV := (jlookup p "data").getD .null
  match fieldsV, dataV with
  | .arr fs, .arr ds =>
    match iterRows ds with
    | none => .error "TypeError: object is not iterable"
    | some rows =>
      .ok { fields := fs.map (fun f => pyStrip (pyStr f))
            rows := rows.map (fun cells => cells.map norm_cell) }
  | _, _ => .error "Unexpected TWSE JSON shape"

/-! ## HTML model

BeautifulSoup internals are an external collaborator; an HTML document is
modelled as the tree shape `_parse_html_first_table` inspects: the first
`<table>` (if any), its `<thead>` / `<tbody>` sections, and any further `<tr>`
elements directly under the table. A cell records its tag (`th` vs `td`) and
the `get_text(strip=True)` text. -/

structure HtmlCell where
  isTh : Bool
  text : String
  deriving Repr, DecidableEq

structure HtmlTr where
  cells : List HtmlCell
  deriving Repr, DecidableEq

structure HtmlTable where
  thead : Option (List HtmlTr)
  tbody : Option (List HtmlTr)
  extraTrs : List HtmlTr
  deriving Repr, DecidableEq

structure HtmlDoc where
  firstTable : Option HtmlTable
  deriving Repr, DecidableEq

/-- `table.find_all("tr")`: every `tr` under the table, in document order. -/
def allTrs (t : HtmlTable) : List HtmlTr :=
  (t.thead.getD []) ++ (t.tbody.getD []) ++ t.extraTrs

/-- `_parse_html_first_table`: needs a `<table>`, a `<thead>` and at least one
header row; fields come from the last header row; body rows come from `<tbody>`
(rows with zero cells dropped), falling back to all-`<tr>` scanning for rows
with at least one `<td>` when the `<tbody>` pass produced nothing. Note the
function returns (it does not raise) when zero data rows survive both passes. -/
def parse_html_first_table (doc : HtmlDoc) : Except String Table :=
  match doc.firstTable with
  | none => .error "No <table> found"
  | some table =>
    match table.thead with
    | none => .error "No <thead> found"
    | some headerRows =>
      match headerRows.getLast? with
      | none => .error "No header rows"
      | some lastHeaderRow =>
        let fields := lastHeaderRow.cells.map (·.text)
        let bodyRows := (table.tbody.getD []).map (fun tr => tr.cells.map (·.text))
        let rows := bodyRows.filter (fun cells => !cells.isEmpty)
        let rows :=
          if rows.isEmpty then
            ((allTrs table).map
                (fun tr => (tr.cells.filter (fun c => !c.isTh)).map (·.text))).filter
              (fun cells => !cells.isEmpty)
          else rows
        .ok { fields := fields, rows := rows }

/-! ## Fallback Fetcher

Network responses are oracle inputs: each JSON candidate URL contributes an
`Except String Payload` (an error models any request/decode exception), the
final HTML candidate an `Except String HtmlDoc`. URLs are identified by
candidate position (`some i` = JSON candidate `i`, `none` = the HTML page). -/

/-- `true` on `Except.ok`; models "the Python call returned instead of
raising". -/
def isOkE {ε α : Type} : Except ε α → Bool
  | .ok _ => true
  | .error _ => false

/-- The `stat` gate: `str(payload.get("stat", "OK")).upper()` must contain
`"OK"`. -/
def statOk (p : Payload) : Bool :=
  strContains (pyUpper (pyStr ((jlookup p "stat").getD (.str "OK")))) "OK"

/-- Parse a stat-accepted JSON payload and reject empty tables (`raise
ValueError("No rows")`). -/
def parseAndCheckRows (payload : Payload) : Except String Table :=
  match parse_twse_json_table payload with
  | .error e => .error e
  | .ok table => if table.rows.isEmpty then .error "No rows" else .ok table

/-- One JSON candidate attempt: decode, check `stat`, parse, reject empty
tables. -/
def tryJsonCandidate (resp : Except String Payload) : Except String Table :=
  match resp with
  | .error e => .error e
  | .ok payload =>
    if statOk payload then parseAndCheckRows payload
    else .error "TWSE stat not OK"

/-- The final HTML attempt: fetch, parse, reject empty tables. -/
def tryHtmlCandidate (resp : Except String HtmlDoc) : Except String Table :=
  match resp with
  | .error e => .error e
  | .ok doc =>
    match parse_html_first_table doc with
    | .error e => .error e
    | .ok table => if table.rows.isEmpty then .error "No rows" else .ok table

/-- The `for url in candidates` loop: first success (with its position) and the
`last_err` accumulator. -/
def fetchLoop (resps : List (Except String Payload)) (i : Nat) (lastErr : Option String) :
    Option (Table × Nat) × Option String :=
  match resps with
  | [] => (none, lastErr)
  | r :: rest =>
    match tryJsonCandidate r with
    | .ok t => (some (t, i), lastErr)
    | .error e => fetchLoop rest (i + 1) (some e)

/-- Shared shape of `fetch_bfi84u` / `fetch_twt93u`: JSON candidates in order,
then the HTML page; on total failure raise `RuntimeError(msgPrefix + (last_err
or e))`. -/
def fetch_report (msgPrefix : String) (jsonResps : List (Except String Payload))
    (htmlResp : Except String HtmlDoc) : Except String (Table × Option Nat) :=
  match fetchLoop jsonResps 0 none with
  | (some (t, i), _) => .ok (t, some i)
  | (none, lastErr) =>
    match tryHtmlCandidate htmlResp with
    | .ok t => .ok (t, none)
    | .error e => .error (msgPrefix ++ lastErr.getD e)

/-- `fetch_bfi84u`: 4 JSON candidates then the HTML page. -/
def fetch_bfi84u (jsonResps : List (Except String Payload))
    (htmlResp : Except String HtmlDoc) : Except String (Table × Option Nat) :=
  fetch_report "Failed to fetch BFI84U: " jsonResps htmlResp

/-- `fetch_twt93u`: 2 JSON candidates then the HTML page. -/
def fetch_twt93u (jsonResps : List (Except String Payload))
    (htmlResp : Except String HtmlDoc) : Except String (Table × Option Nat) :=
  fetch_report "Failed to fetch TWT93U: " jsonResps htmlResp

/-! ## Column Resolver -/

/-- `_find_stock_code_col`: first header matching the regex
`代號|證券代號|股票代號` (an alternation of substring searches), else 0. -/
def find_stock_code_col (fields : List String) : Nat :=
  match fields.findIdx?
      (fun f => strContains f "代號" || strContains f "證券代號" || strContains f "股票代號") with
  | some i => i
  | none => 0

/-- The candidate indices of `_pick_index`: positions whose header contains the
target substring, in ascending order. -/
def pickCandidates (fields : List String) (target : String) : List Nat :=
  (List.range fields.length).filter (fun i => strContains (fields.getD i "") target)

/-- `max((score(i), i) for i in candidates)` over an ascending candidate list:
traverse in order, replacing the best when the new score is at least as large,
so a score tie goes to the larger index — exactly
`sorted(..., reverse=True)[0][1]` on the distinct `(score, i)` pairs. -/
def pickBest (score : Nat → Nat) : Nat → List Nat → Nat
  | best, [] => best
  | best, i :: rest => pickBest score (if score best ≤ score i then i else best) rest

/-- `_pick_index`: raise when no header contains the target, else the candidate
maximising `(score, index)` lexicographically. -/
def pick_index (fields : List String) (target : String) (score : Nat → Nat) :
    Except String Nat :=
  match pickCandidates fields target with
  | [] => .error ("Missing column: " ++ target)
  | c :: cs => .ok (pickBest score c cs)

/-- `score_short` in `_twt93u_indices`: +2 when the header 1 back contains
`現券`, +1 each for 2 and 3 back. -/
def score_short (fields : List String) (i : Nat) : Nat :=
  (if 1 ≤ i ∧ strContains (fields.getD (i - 1) "") "現券" then 2 else 0)
    + (if 2 ≤ i ∧ strContains (fields.getD (i - 2) "") "現券" then 1 else 0)
    + (if 3 ≤ i ∧ strContains (fields.getD (i - 3) "") "現券" then 1 else 0)

/-- `score_borrow` in `_twt93u_indices`: +2 when the header 1 forward contains
`次一` or `限額`, +1 when the header 1 back contains `當日調整`. -/
def score_borrow (fields : List String) (i : Nat) : Nat :=
  (if i + 1 < fields.length ∧
        (strContains (fields.getD (i + 1) "") "次一" ||
          strContains (fields.getD (i + 1) "") "限額") then 2 else 0)
    + (if 1 ≤ i ∧ strContains (fields.getD (i - 1) "") "當日調整" then 1 else 0)

/-- The short-sale today's-balance resolution of `_twt93u_indices`. -/
def short_balance_index (fields : List String) : Except String Nat :=
  pick_index fields "今日餘額" (score_short fields)

/-- The lending today's-balance resolution of `_twt93u_indices`. -/
def borrow_balance_index (fields : List String) : Except String Nat :=
  pick_index fields "當日餘額" (score_borrow fields)

/-- `_twt93u_indices`: `(code_idx, short_idx, borrow_idx)`. -/
def twt93u_indices (fields : List String) : Except String (Nat × Nat × Nat) :=
  match short_balance_index fields with
  | .error e => .error e
  | .ok shortIdx =>
    match borrow_balance_index fields with
    | .error e => .error e
    | .ok borrowIdx => .ok (find_stock_code_col fields, shortIdx, borrowIdx)

/-! ## Trading-Calendar Resolver

Dates are day numbers (`Int`); `d - 1` is the previous calendar day. The
TWT93U probe at each date is an oracle `probe : Int → Option α` (`none` = the
fetch raised, i.e. a non-trading day); `α` stands for the fetched
table-and-URL pair, which the resolver only stores. -/

/-- The candidate days examined by a full window: `base, base-1, ...` for `w`
days. -/
def window (base : Int) : Nat → List Int
  | 0 => []
  | n + 1 => base :: window (base - 1) n

/-- The `for _ in range(max_lookback_days)` loop of `compute_trading_dates`,
instrumented: returns the recorded `(date, table)` list and, as a ghost
component, the list of dates actually probed. `need` is how many more trading
dates are wanted; the loop breaks when a success makes the collection full. -/
def ctd {α : Type} (probe : Int → Option α) (cursor : Int) (fuel need : Nat) :
    List (Int × α) × List Int :=
  match fuel with
  | 0 => ([], [])
  | fuel + 1 =>
    match probe cursor with
    | some t =>
      if need ≤ 1 then ([(cursor, t)], [cursor])
      else
        let r := ctd probe (cursor - 1) fuel (need - 1)
        ((cursor, t) :: r.1, cursor :: r.2)
    | none =>
      let r := ctd probe (cursor - 1) fuel need
      (r.1, cursor :: r.2)

/-- `compute_trading_dates`: walk backward from `base`, keep successfully
probed dates (most recent first, each with its cached table), raise when fewer
than `count` were found within the lookback window. -/
def compute_trading_dates {α : Type} (probe : Int → Option α) (base : Int)
    (count lookback : Nat) : Except String (List (Int × α)) :=
  let trading := (ctd probe base lookback count).1
  if trading.length < count then
    .error "Only found fewer trading days within lookback window"
  else .ok trading

/-! ## Merger -/

/-- The `(short_val, borrow_val)` pair taken from one lending row in
`build_twt93u_maps`: a balance cell beyond the row's length contributes `""`. -/
def row_pair (shortIdx borrowIdx : Nat) (row : List String) : String × String :=
  (if shortIdx < row.length then pyStrip (row.getD shortIdx "") else "",
   if borrowIdx < row.length then pyStrip (row.getD borrowIdx "") else "")

/-- One iteration of the row loop of `build_twt93u_maps`: skip the row when the
code cell is out of range or empty, else store (overwrite) the row's pair under
the trimmed code. -/
def upd_row (codeIdx shortIdx borrowIdx : Nat) (m : String → Option (String × String))
    (row : List String) : String → Option (String × String) :=
  if row.length ≤ codeIdx then m
  else if pyStrip (row.getD codeIdx "") = "" then m
  else fun c =>
    if c = pyStrip (row.getD codeIdx "") then some (row_pair shortIdx borrowIdx row) else m c

/-- `build_twt93u_maps`, per date: fold the lending table's rows into a
code-keyed map (a later row overwrites an earlier one, as in a `dict`). -/
def build_date_map (codeIdx shortIdx borrowIdx : Nat) (rows : List (List String)) :
    String → Option (String × String) :=
  rows.foldl (upd_row codeIdx shortIdx borrowIdx) (fun _ => none)

/-- The em-dash sentinel of the merge loop in `main`. -/
def sentinel : String := "—"

/-- Python `s or d` on strings. -/
def pyOrStr (s d : String) : String :=
  if s = "" then d else s

/-- `row[code_idx].strip() if code_idx < len(row) else ""` in `main`'s merge
loop. -/
def row_code (codeIdx : Nat) (row : List String) : String :=
  if codeIdx < row.length then pyStrip (row.getD codeIdx "") else ""

/-- The two cells appended for one base row and one trading date in `main`:
default `("", "")`, overwritten when the code is found (a found pair is a
truthy tuple), then each component goes through `or "—"`. -/
def date_pair (maps : String → String → Option (String × String)) (codeIdx : Nat)
    (ds : String) (row : List String) : List String :=
  let found := (maps ds (row_code codeIdx row)).getD ("", "")
  [pyOrStr found.1 sentinel, pyOrStr found.2 sentinel]

/-- The merge loop of `main`: every base row, in order, extended with the two
cells per trading date, dates in the given (most-recent-first) order. -/
def merge_rows (maps : String → String → Option (String × String)) (codeIdx : Nat)
    (tradingDs : List String) (rows : List (List String)) : List (List String) :=
  rows.map (fun row => row ++ tradingDs.flatMap (fun ds => date_pair maps codeIdx ds row))

/-! ## Concrete example values used by the claim theorems -/

/-- The spec's example lending-summary header fragment. -/
def exampleHeader : List String := ["現券", "今日餘額A", "今日餘額B"]

/-- A well-formed table and header with zero data rows. -/
def emptyRowsDoc : HtmlDoc :=
  { firstTable := some { thead := some [{ cells := [{ isTh := true, text := "h" }] }]
                         tbody := some []
                         extraTrs := [] } }

/-- The spec's calendar example as a probe oracle: 7 consecutive days
`0, -1, ..., -6` of which days `-2` and `-3` (the simulated weekend) fail. -/
def probe_example : Int → Option Unit :=
  fun d => if d = -2 ∨ d = -3 then none else some ()

/-- The trading dates the Resolver actually probed, in probe order: the ghost
log component of `ctd` started like `compute_trading_dates` starts it. -/
def probed_dates {α : Type} (probe : Int → Option α) (base : Int) (count lookback : Nat) :
    List Int :=
  (ctd probe base lookback count).2

/-- A one-date lending map holding `("", "7")` (empty short balance) for stock
code `"X"`. -/
def maps_example : String → String → Option (String × String) :=
  fun ds c => if ds == "d" && c == "X" then some ("", "7") else none

/-- The trading days inside a candidate-day list, in list order. -/
def tdSucc {α : Type} (probe : Int → Option α) (l : List Int) : List Int :=
  l.filter (fun d => (probe d).isSome)

/-- The `(date, table)` pairs a probe oracle yields on a candidate-day list. -/
def successesOf {α : Type} (probe : Int → Option α) (l : List Int) : List (Int × α) :=
  l.filterMap (fun d => (probe d).map (fun t => (d, t)))

/-! ## Claim C2: short-sale balance resolution on the spec's example header -/

/-- Claim C2 counterexample: on the header `["現券", "今日餘額A", "今日餘額B"]`
the short-sale today's-balance resolution returns index 1 (`今日餘額A`), not
index 2 (`今日餘額B`) as the claim states: the `+2` immediate-predecessor bonus
goes to `今日餘額A`, whose predecessor is `現券`; `今日餘額B` only collects the
`+1` two-back bonus. -/
theorem c2_cex :
    short_balance_index exampleHeader = .ok 1 ∧ short_balance_index exampleHeader ≠ .ok 2 := by
  constructor
  · rfl
  · decide

/-- Claim C2 (amended): on the spec's example header the resolver returns the
index of `今日餘額A` — the candidate scoring 2 (marker `現券` one position
back); `今日餘額B` scores 1 (marker two positions back) and loses. -/
theorem c2_amended :
    short_balance_index exampleHeader = .ok 1
      ∧ exampleHeader.getD 1 "" = "今日餘額A"
      ∧ score_short exampleHeader 1 = 2
      ∧ score_short exampleHeader 2 = 1 := by
  refine ⟨rfl, rfl, ?_, ?_⟩ <;> decide

/-! ## Claim C3: tie-breaking of `_pick_index` -/

theorem pickBest_mem (score : Nat → Nat) (l : List Nat) :
    ∀ b, pickBest score b l ∈ b :: l := by
  induction l with
  | nil => intro b; simp [pickBest]
  | cons i rest ih =>
    intro b
    rw [pickBest]
    have h := ih (if score b ≤ score i then i else b)
    rcases List.mem_cons.mp h with h1 | h1
    · rw [h1]
      split <;> simp
    · exact List.mem_cons_of_mem _ (List.mem_cons_of_mem _ h1)

theorem pickBest_le (score : Nat → Nat) (l : List Nat) :
    ∀ b, ∀ j ∈ b :: l, score j ≤ score (pickBest score b l) := by
  induction l with
  | nil =>
    intro b j hj
    rw [List.mem_singleton] at hj
    subst hj
    simp [pickBest]
  | cons i rest ih =>
    intro b j hj
    rw [pickBest]
    have htop := ih (if score b ≤ score i then i else b) _ (List.mem_cons_self _ _)
    rcases List.mem_cons.mp hj with h1 | h1
    · subst h1
      have : score j ≤ score (if score j ≤ score i then i else j) := by
        split <;> omega
      omega
    rcases List.mem_cons.mp h1 with h2 | h2
    · subst h2
      have : score j ≤ score (if score b ≤ score j then j else b) := by
        split <;> omega
      omega
    · exact ih _ j (List.mem_cons_of_mem _ h2)

theorem pickBest_tie (score : Nat → Nat) (l : List Nat) :
    ∀ b, (b :: l).Pairwise (· < ·) →
      ∀ j ∈ b :: l, score j = score (pickBest score b l) → j ≤ pickBest score b l := by
  induction l with
  | nil =>
    intro b _ j hj _
    rw [List.mem_singleton] at hj
    subst hj
    simp [pickBest]
  | cons i rest ih =>
    intro b hpw j hj hsc
    rw [pickBest] at hsc ⊢
    rw [List.pairwise_cons] at hpw
    obtain ⟨hblt, hpw'⟩ := hpw
    have hb'pw : ((if score b ≤ score i then i else b) :: rest).Pairwise (· < ·) := by
      rw [List.pairwise_cons]
      refine ⟨?_, (List.pairwise_cons.mp hpw').2⟩
      intro x hx
      split
      · exact (List.pairwise_cons.mp hpw').1 x hx
      · exact hblt x (List.mem_cons_of_mem _ hx)
    rcases List.mem_cons.mp hj with h1 | h1
    · -- j = b: every element of the new head-and-tail is ≥ b
      subst h1
      have hmem := pickBest_mem score rest (if score j ≤ score i then i else j)
      rcases List.mem_cons.mp hmem with h2 | h2
      · rw [h2]
        split
        · exact Nat.le_of_lt (hblt i (List.mem_cons_self _ _))
        · exact Nat.le_refl _
      · exact Nat.le_of_lt (hblt _ (List.mem_cons_of_mem _ h2))
    rcases List.mem_cons.mp h1 with h2 | h2
    · -- j = i
      subst h2
      by_cases hbi : score b ≤ score j
      · rw [if_pos hbi] at hsc hb'pw ⊢
        exact ih _ hb'pw j (List.mem_cons_self _ _) hsc
      · -- score j < score b ≤ score (pickBest b rest): contradiction with hsc
        rw [if_neg hbi] at hsc ⊢
        have := pickBest_le score rest b b (List.mem_cons_self _ _)
        omega
    · exact ih _ hb'pw j (List.mem_cons_of_mem _ h2) hsc

theorem pickCandidates_pairwise (fields : List String) (target : String) :
    (pickCandidates fields target).Pairwise (· < ·) :=
  (List.pairwise_lt_range _).filter _

/-- Claim C3 counterexample: in `["今日餘額A", "今日餘額B"]` both candidates
contain the target and score 0, yet the resolver returns index 1 — the LAST
tied candidate, not the first. -/
theorem c3_cex :
    short_balance_index ["今日餘額A", "今日餘額B"] = .ok 1
      ∧ score_short ["今日餘額A", "今日餘額B"] 0 = score_short ["今日餘額A", "今日餘額B"] 1
      ∧ short_balance_index ["今日餘額A", "今日餘額B"] ≠ .ok 0 := by
  refine ⟨rfl, rfl, ?_⟩
  decide

/-- Claim C3 (amended): whenever `_pick_index` succeeds, the returned index is
a candidate of maximal score, and among equal-scoring candidates it is the
LAST in header order (ties broken by largest index), for both balance
resolutions (they share `_pick_index`). -/
theorem c3_amended (fields : List String) (target : String) (score : Nat → Nat) (i : Nat)
    (h : pick_index fields target score = .ok i) :
    i ∈ pickCandidates fields target
      ∧ (∀ j ∈ pickCandidates fields target, score j ≤ score i)
      ∧ (∀ j ∈ pickCandidates fields target, score j = score i → j ≤ i) := by
  cases hc : pickCandidates fields target with
  | nil =>
    rw [pick_index, hc] at h
    cases h
  | cons c cs =>
    rw [pick_index, hc] at h
    simp only [Except.ok.injEq] at h
    subst h
    have hpw : (c :: cs).Pairwise (· < ·) := by
      rw [← hc]
      exact pickCandidates_pairwise fields target
    exact ⟨pickBest_mem score cs c, pickBest_le score cs c,
      fun j hj hs => pickBest_tie score cs c hpw j hj hs⟩

/-- Claim C3 witness: the amended theorem applied to the concrete tied header,
certifying that candidate 0's score is bounded by the winner's. -/
theorem c3_witness :
    score_short ["今日餘額A", "今日餘額B"] 0 ≤ score_short ["今日餘額A", "今日餘額B"] 1 :=
  (c3_amended ["今日餘額A", "今日餘額B"] "今日餘額"
      (score_short ["今日餘額A", "今日餘額B"]) 1 (by rfl)).2.1 0 (by decide)

/-! ## Claim C4: HTML parser failure conditions -/

/-- Claim C4 counterexample: an input with a well-formed table and header but
zero data rows does NOT make the parser fail — it returns a table with zero
rows. -/
theorem c4_cex :
    parse_html_first_table emptyRowsDoc = .ok { fields := ["h"], rows := [] }
      ∧ isOkE (parse_html_first_table emptyRowsDoc) = true := by
  exact ⟨rfl, rfl⟩

/-- Claim C4 (amended): the HTML parser fails exactly when there is no
`<table>`, no `<thead>`, or the `<thead>` has zero header rows; zero data rows
yield an empty-rows table from the parser, and it is the Fallback Fetcher's
candidate attempt that rejects such a table with the "No rows" error. -/
theorem c4_amended (doc : HtmlDoc) :
    (isOkE (parse_html_first_table doc) = true ↔
        ∃ t, doc.firstTable = some t ∧ ∃ hr, t.thead = some hr ∧ hr ≠ [])
      ∧ ∀ t, parse_html_first_table doc = .ok t → t.rows.isEmpty = true →
          tryHtmlCandidate (.ok doc) = .error "No rows" := by
  constructor
  · obtain ⟨ft⟩ := doc
    cases ft with
    | none => simp [parse_html_first_table, isOkE]
    | some table =>
      obtain ⟨th, tb, ex⟩ := table
      cases th with
      | none => simp [parse_html_first_table, isOkE]
      | some headerRows =>
        cases hlast : headerRows.getLast? with
        | none =>
          rw [List.getLast?_eq_none_iff] at hlast
          subst hlast
          simp [parse_html_first_table, isOkE]
        | some lastRow =>
          have hne : headerRows ≠ [] := by
            intro hnil
            subst hnil
            cases hlast
          simp [parse_html_first_table, hlast, isOkE, hne]
  · intro t hp hrows
    rw [tryHtmlCandidate, hp]
    show (if t.rows.isEmpty = true then Except.error "No rows" else Except.ok t) = _
    simp [hrows]

/-- Claim C4 witness: the amended theorem applied to the concrete empty-rows
document, showing the fetcher (not the parser) produces the "No rows" error. -/
theorem c4_witness : tryHtmlCandidate (.ok emptyRowsDoc) = .error "No rows" :=
  (c4_amended emptyRowsDoc).2 { fields := ["h"], rows := [] } rfl rfl

/-! ## Claim C5: error carried by `FetchExhausted` -/

theorem fetchLoop_fail (resps : List (Except String Payload)) :
    ∀ i le, (∀ r ∈ resps, isOkE (tryJsonCandidate r) = false) →
      (fetchLoop resps i le).1 = none
        ∧ (resps = [] → (fetchLoop resps i le).2 = le)
        ∧ (∀ last e, resps.getLast? = some last → tryJsonCandidate last = .error e →
            (fetchLoop resps i le).2 = some e) := by
  induction resps with
  | nil =>
    intro i le _
    refine ⟨rfl, fun _ => rfl, ?_⟩
    intro last e hlast _
    cases hlast
  | cons r rest ih =>
    intro i le hfail
    cases hr : tryJsonCandidate r with
    | ok t =>
      have := hfail r (List.mem_cons_self _ _)
      rw [hr] at this
      cases this
    | error e' =>
      have hstep : fetchLoop (r :: rest) i le = fetchLoop rest (i + 1) (some e') := by
        rw [fetchLoop, hr]
      rw [hstep]
      have ihres := ih (i + 1) (some e') (fun x hx => hfail x (List.mem_cons_of_mem _ hx))
      refine ⟨ihres.1, ⟨fun h => absurd h (List.cons_ne_nil r rest), ?_⟩⟩
      intro last e hlast herr
      cases rest with
      | nil =>
        simp only [List.getLast?_singleton, Option.some.injEq] at hlast
        subst hlast
        rw [herr] at hr
        injection hr with hr
        subst hr
        exact ihres.2.1 rfl
      | cons x xs =>
        rw [List.getLast?_cons_cons] at hlast
        exact ihres.2.2 last e hlast herr

/-- Claim C5 counterexample: when both JSON candidates and the HTML page fail,
the raised error carries the LAST JSON candidate's error ("json error B"), not
the final HTML attempt's error ("html error") as the claim states. -/
theorem c5_cex :
    fetch_twt93u [.error "json error A", .error "json error B"] (.error "html error")
        = .error "Failed to fetch TWT93U: json error B"
      ∧ fetch_twt93u [.error "json error A", .error "json error B"] (.error "html error")
        ≠ .error "Failed to fetch TWT93U: html error" := by
  constructor
  · rfl
  · decide

/-- Claim C5 (amended): when every candidate fails (the HTML one included) and
at least one JSON candidate was attempted, the `FetchExhausted` error carries
the error of the LAST JSON candidate (`last_err or e` prefers `last_err`); the
HTML attempt's own error is dropped. -/
theorem c5_amended (msgPrefix : String) (resps : List (Except String Payload))
    (htmlResp : Except String HtmlDoc) (last : Except String Payload) (eJson eHtml : String)
    (hfail : ∀ r ∈ resps, isOkE (tryJsonCandidate r) = false)
    (hlast : resps.getLast? = some last)
    (hlastErr : tryJsonCandidate last = .error eJson)
    (hhtml : tryHtmlCandidate htmlResp = .error eHtml) :
    fetch_report msgPrefix resps htmlResp = .error (msgPrefix ++ eJson) := by
  have hl := fetchLoop_fail resps 0 none hfail
  have hpair : fetchLoop resps 0 none = (none, some eJson) := by
    have h2 := hl.2.2 last eJson hlast hlastErr
    rw [← hl.1, ← h2]
  rw [fetch_report, hpair, hhtml]
  rfl

/-- Claim C5 witness: the amended theorem at the concrete all-fail run. -/
theorem c5_witness :
    fetch_report "Failed to fetch TWT93U: " [.error "json error A", .error "json error B"]
        (.error "html error") = .error ("Failed to fetch TWT93U: " ++ "json error B") :=
  c5_amended "Failed to fetch TWT93U: " [.error "json error A", .error "json error B"]
    (.error "html error") (.error "json error B") "json error B" "html error"
    (by decide) rfl rfl rfl

/-! ## Claim C8: JSON parser success condition -/

theorem iterRows_isSome (ds : List JVal) :
    (iterRows ds).isSome = true ↔ ∀ r ∈ ds, (iterPy r).isSome = true := by
  induction ds with
  | nil => simp [iterRows]
  | cons r rs ih =>
    rw [iterRows]
    cases hr : iterPy r with
    | none =>
      constructor
      · intro h
        cases h
      · intro h
        have := h r (List.mem_cons_self _ _)
        rw [hr] at this
        cases this
    | some cells =>
      cases hrs : iterRows rs with
      | none =>
        rw [hrs] at ih
        constructor
        · intro h
          cases h
        · intro h
          have hfalse := ih.mpr (fun x hx => h x (List.mem_cons_of_mem _ hx))
          cases hfalse
      | some rest =>
        rw [hrs] at ih
        constructor
        · intro _ x hx
          rcases List.mem_cons.mp hx with h1 | h1
          · subst h1
            rw [hr]
            rfl
          · exact ih.mp rfl x h1
        · intro _
          rfl

/-- Claim C8 counterexample: a payload whose `fields` entry is present and
array-typed (the empty array) and whose `data` entry is present and
array-typed nevertheless fails: the empty array is falsy, so
`payload.get("fields") or payload.get("fields1")` falls through to the absent
`fields1` and yields `None`. -/
theorem c8_cex :
    parse_twse_json_table [("fields", .arr []), ("data", .arr [])]
        = .error "Unexpected TWSE JSON shape"
      ∧ isOkE (parse_twse_json_table [("fields", .arr []), ("data", .arr [])]) = false := by
  exact ⟨rfl, rfl⟩

/-- Claim C8 (amended): the parser succeeds iff the value selected by Python's
`or` — `fields` if truthy, else `fields1` — is an array, `data` is an array,
and every data row is iterable; on success the header cells are stringified
and trimmed, the data cells go through `norm_cell`, and a `null` cell becomes
the empty string. A present-but-empty `fields` array is falsy and defers to
`fields1`. -/
theorem c8_amended (p : Payload) :
    (isOkE (parse_twse_json_table p) = true ↔
        (∃ fs, pyOrJ ((jlookup p "fields").getD .null) ((jlookup p "fields1").getD .null)
            = .arr fs)
          ∧ ∃ ds, (jlookup p "data").getD .null = .arr ds
              ∧ ∀ r ∈ ds, (iterPy r).isSome = true)
      ∧ (∀ t, parse_twse_json_table p = .ok t →
          ∃ fs ds rows,
            pyOrJ ((jlookup p "fields").getD .null) ((jlookup p "fields1").getD .null)
                = .arr fs
              ∧ (jlookup p "data").getD .null = .arr ds
              ∧ iterRows ds = some rows
              ∧ t.fields = fs.map (fun f => pyStrip (pyStr f))
              ∧ t.rows = rows.map (fun cells => cells.map norm_cell))
      ∧ norm_cell .null = "" := by
  refine ⟨?_, ?_, rfl⟩
  · cases hf : pyOrJ ((jlookup p "fields").getD .null) ((jlookup p "fields1").getD .null) with
    | arr fs =>
      cases hd : (jlookup p "data").getD .null with
      | arr ds =>
        cases hit : iterRows ds with
        | none =>
          simp only [parse_twse_json_table, hf, hd, hit, isOkE]
          constructor
          · intro h
            cases h
          · rintro ⟨-, ds2, hds2, hall⟩
            injection hds2 with hds2
            subst hds2
            have hsome := (iterRows_isSome ds).mpr hall
            rw [hit] at hsome
            cases hsome
        | some rows =>
          simp only [parse_twse_json_table, hf, hd, hit, isOkE]
          refine ⟨fun _ => ⟨⟨fs, rfl⟩, ds, rfl, ?_⟩, fun _ => trivial⟩
          exact (iterRows_isSome ds).mp (by rw [hit]; rfl)
      | null => simp [parse_twse_json_table, hf, hd, isOkE]
      | bool b => simp [parse_twse_json_table, hf, hd, isOkE]
      | num n => simp [parse_twse_json_table, hf, hd, isOkE]
      | str s => simp [parse_twse_json_table, hf, hd, isOkE]
      | obj kvs => simp [parse_twse_json_table, hf, hd, isOkE]
    | null => simp [parse_twse_json_table, hf, isOkE]
    | bool b => simp [parse_twse_json_table, hf, isOkE]
    | num n => simp [parse_twse_json_table, hf, isOkE]
    | str s => simp [parse_twse_json_table, hf, isOkE]
    | obj kvs => simp [parse_twse_json_table, hf, isOkE]
  · intro t ht
    cases hf : pyOrJ ((jlookup p "fields").getD .null) ((jlookup p "fields1").getD .null) with
    | arr fs =>
      cases hd : (jlookup p "data").getD .null with
      | arr ds =>
        cases hit : iterRows ds with
        | none =>
          simp only [parse_twse_json_table, hf, hd, hit] at ht
          cases ht
        | some rows =>
          simp only [parse_twse_json_table, hf, hd, hit, Except.ok.injEq] at ht
          subst ht
          exact ⟨fs, ds, rows, rfl, rfl, hit, rfl, rfl⟩
      | null => simp only [parse_twse_json_table, hf, hd] at ht; cases ht
      | bool b => simp only [parse_twse_json_table, hf, hd] at ht; cases ht
      | num n => simp only [parse_twse_json_table, hf, hd] at ht; cases ht
      | str s => simp only [parse_twse_json_table, hf, hd] at ht; cases ht
      | obj kvs => simp only [parse_twse_json_table, hf, hd] at ht; cases ht
    | null => simp only [parse_twse_json_table, hf] at ht; cases ht
    | bool b => simp only [parse_twse_json_table, hf] at ht; cases ht
    | num n => simp only [parse_twse_json_table, hf] at ht; cases ht
    | str s => simp only [parse_twse_json_table, hf] at ht; cases ht
    | obj kvs => simp only [parse_twse_json_table, hf] at ht; cases ht

/-- Claim C8 witness: the amended theorem's success direction at a concrete
payload with a `null` cell and an absent `fields` falling back to `fields1`. -/
theorem c8_witness :
    isOkE (parse_twse_json_table
        [("fields1", .arr [.str " a "]), ("data", .arr [.arr [.null, .num 5]])]) = true :=
  (c8_amended [("fields1", .arr [.str " a "]), ("data", .arr [.arr [.null, .num 5]])]).1.mpr
    ⟨⟨[.str " a "], rfl⟩, [.arr [.null, .num 5]], rfl, by decide⟩

/-! ## Claim C9: missing `stat` field is treated as OK -/

/-- Claim C9: a JSON payload with no `stat` key passes the status gate (the
default `"OK"` is used) and the candidate proceeds to parsing; rejection
happens exactly when a `stat` key is present and its uppercased string does
not contain `"OK"`; any payload passing the gate proceeds to parsing. -/
theorem c9_stat_default (p : Payload) :
    (jlookup p "stat" = none → statOk p = true
        ∧ tryJsonCandidate (.ok p) = parseAndCheckRows p)
      ∧ (statOk p = false ↔
          ∃ v, jlookup p "stat" = some v ∧ strContains (pyUpper (pyStr v)) "OK" = false)
      ∧ (statOk p = true → tryJsonCandidate (.ok p) = parseAndCheckRows p) := by
  have hstep : ∀ (_ : statOk p = true), tryJsonCandidate (.ok p) = parseAndCheckRows p := by
    intro hp
    show (if statOk p then parseAndCheckRows p else Except.error "TWSE stat not OK") = _
    rw [if_pos hp]
  refine ⟨?_, ?_, hstep⟩
  · intro h
    have h1 : statOk p = true := by
      rw [statOk, h]
      decide
    exact ⟨h1, hstep h1⟩
  · cases hv : jlookup p "stat" with
    | none =>
      have h1 : statOk p = true := by
        rw [statOk, hv]
        decide
      rw [h1]
      simp
    | some v =>
      have h1 : statOk p = strContains (pyUpper (pyStr v)) "OK" := by
        rw [statOk, hv]
        rfl
      rw [h1]
      simp

/-- Claim C9 witness: the theorem at a concrete stat-less payload. -/
theorem c9_witness :
    statOk [("data", .arr [])] = true
      ∧ tryJsonCandidate (.ok [("data", .arr [])]) = parseAndCheckRows [("data", .arr [])] :=
  (c9_stat_default [("data", .arr [])]).1 rfl

/-! ## Claim C10: per-date lending map semantics -/

theorem upd_row_apply (ci si bi : Nat) (m : String → Option (String × String))
    (row : List String) (c : String) :
    upd_row ci si bi m row c =
      if (decide (ci < row.length) && (pyStrip (row.getD ci "") != "") &&
          (pyStrip (row.getD ci "") == c)) = true
      then some (row_pair si bi row) else m c := by
  by_cases h1 : row.length ≤ ci
  · have hA : decide (ci < row.length) = false := decide_eq_false (by omega)
    rw [upd_row, if_pos h1, hA]
    rfl
  · have hA : decide (ci < row.length) = true := decide_eq_true (by omega)
    by_cases h2 : pyStrip (row.getD ci "") = ""
    · rw [upd_row, if_neg h1, if_pos h2, hA, h2]
      rfl
    · have hB : (pyStrip (row.getD ci "") != "") = true := bne_iff_ne.mpr h2
      rw [upd_row, if_neg h1, if_neg h2]
      show (if c = pyStrip (row.getD ci "") then some (row_pair si bi row) else m c) = _
      by_cases h3 : c = pyStrip (row.getD ci "")
      · have hC : (pyStrip (row.getD ci "") == c) = true := beq_iff_eq.mpr h3.symm
        rw [if_pos h3, hA, hB, hC]
        rfl
      · have hC : (pyStrip (row.getD ci "") == c) = false :=
          beq_eq_false_iff_ne.mpr (fun h => h3 h.symm)
        rw [if_neg h3, hA, hB, hC]
        rfl

theorem build_date_map_foldl (ci si bi : Nat) (rows : List (List String)) (c : String) :
    ∀ m0, rows.foldl (upd_row ci si bi) m0 c =
      match rows.reverse.find? (fun row =>
          decide (ci < row.length) && (pyStrip (row.getD ci "") != "") &&
            (pyStrip (row.getD ci "") == c)) with
      | some row => some (row_pair si bi row)
      | none => m0 c := by
  induction rows with
  | nil =>
    intro m0
    rfl
  | cons row rest ih =>
    intro m0
    rw [List.foldl_cons, List.reverse_cons, List.find?_append, ih]
    cases hfind : rest.reverse.find? (fun row =>
        decide (ci < row.length) && (pyStrip (row.getD ci "") != "") &&
          (pyStrip (row.getD ci "") == c)) with
    | some r => rw [Option.or_some]
    | none =>
      rw [Option.none_or, List.find?_singleton, upd_row_apply]
      cases hb : (decide (ci < row.length) && (pyStrip (row.getD ci "") != "") &&
          (pyStrip (row.getD ci "") == c)) with
      | true => rfl
      | false => rfl

/-- Claim C10: the per-date code map's value at any key `c` comes from the
LAST table row (later rows overwrite earlier ones) whose code cell is in
range, trims non-empty, and trims to `c`; rows with an out-of-range or empty
code cell never contribute, and `row_pair` supplies `""` for a balance cell
beyond the row's length. -/
theorem c10_date_map (ci si bi : Nat) (rows : List (List String)) (c : String) :
    build_date_map ci si bi rows c =
      (rows.reverse.find? (fun row =>
          decide (ci < row.length) && (pyStrip (row.getD ci "") != "") &&
            (pyStrip (row.getD ci "") == c))).map (row_pair si bi) := by
  rw [build_date_map, build_date_map_foldl]
  cases hfind : rows.reverse.find? (fun row =>
      decide (ci < row.length) && (pyStrip (row.getD ci "") != "") &&
        (pyStrip (row.getD ci "") == c)) with
  | some r => rfl
  | none => rfl

/-! ## Claim C6: Trading-Calendar Resolver -/

theorem window_length (w : Nat) : ∀ base, (window base w).length = w := by
  induction w with
  | zero => intro base; rfl
  | succ n ih =>
    intro base
    rw [window, List.length_cons, ih]

theorem window_mem_le (w : Nat) : ∀ base d, d ∈ window base w → d ≤ base := by
  induction w with
  | zero =>
    intro base d hd
    cases hd
  | succ n ih =>
    intro base d hd
    rw [window] at hd
    rcases List.mem_cons.mp hd with h1 | h1
    · omega
    · have := ih (base - 1) d h1
      omega

theorem window_pairwise (w : Nat) : ∀ base, (window base w).Pairwise (· > ·) := by
  induction w with
  | zero => intro base; exact List.Pairwise.nil
  | succ n ih =>
    intro base
    rw [window, List.pairwise_cons]
    refine ⟨fun d hd => ?_, ih (base - 1)⟩
    have := window_mem_le n (base - 1) d hd
    omega

theorem successesOf_fst {α : Type} (probe : Int → Option α) (l : List Int) :
    (successesOf probe l).map Prod.fst = tdSucc probe l := by
  induction l with
  | nil => rfl
  | cons d ds ih =>
    cases hp : probe d with
    | none =>
      simp only [successesOf, tdSucc, List.filterMap_cons, List.filter_cons, hp] at ih ⊢
      simpa using ih
    | some t =>
      simp only [successesOf, tdSucc, List.filterMap_cons, List.filter_cons, hp] at ih ⊢
      simpa using ih

theorem ctd_fst {α : Type} (probe : Int → Option α) :
    ∀ (fuel : Nat) (cursor : Int) (need : Nat),
      (ctd probe cursor fuel need).1
        = (successesOf probe (window cursor fuel)).take (max need 1) := by
  intro fuel
  induction fuel with
  | zero =>
    intro cursor need
    simp [ctd, window, successesOf]
  | succ f ih =>
    intro cursor need
    rw [window]
    cases hp : probe cursor with
    | none =>
      have hs : successesOf probe (cursor :: window (cursor - 1) f)
          = successesOf probe (window (cursor - 1) f) := by
        simp [successesOf, List.filterMap_cons, hp]
      simp only [ctd, hp, hs]
      exact ih (cursor - 1) need
    | some t =>
      have hs : successesOf probe (cursor :: window (cursor - 1) f)
          = (cursor, t) :: successesOf probe (window (cursor - 1) f) := by
        simp [successesOf, List.filterMap_cons, hp]
      by_cases hn : need ≤ 1
      · simp only [ctd, hp, if_pos hn, hs]
        rw [show max need 1 = 1 from by omega]
        rfl
      · simp only [ctd, hp, if_neg hn, hs]
        rw [show max need 1 = (need - 1) + 1 from by omega, List.take_succ_cons,
          ih (cursor - 1) (need - 1), show max (need - 1) 1 = need - 1 from by omega]

theorem ctd_probed_prefix {α : Type} (probe : Int → Option α) :
    ∀ (fuel : Nat) (cursor : Int) (need : Nat),
      (ctd probe cursor fuel need).2 <+: window cursor fuel := by
  intro fuel
  induction fuel with
  | zero =>
    intro cursor need
    exact List.nil_prefix
  | succ f ih =>
    intro cursor need
    rw [window]
    cases hp : probe cursor with
    | none =>
      simp only [ctd, hp]
      obtain ⟨tail, htail⟩ := ih (cursor - 1) need
      exact ⟨tail, by rw [List.cons_append, htail]⟩
    | some t =>
      by_cases hn : need ≤ 1
      · simp only [ctd, hp, if_pos hn]
        exact ⟨window (cursor - 1) f, rfl⟩
      · simp only [ctd, hp, if_neg hn]
        obtain ⟨tail, htail⟩ := ih (cursor - 1) (need - 1)
        exact ⟨tail, by rw [List.cons_append, htail]⟩

theorem ctd_probed_spec {α : Type} (probe : Int → Option α) :
    ∀ (fuel : Nat) (cursor : Int) (need : Nat),
      (tdSucc probe (ctd probe cursor fuel need).2).length ≤ max need 1
        ∧ ((tdSucc probe (ctd probe cursor fuel need).2).length < max need 1 →
            (ctd probe cursor fuel need).2 = window cursor fuel)
        ∧ ((tdSucc probe (ctd probe cursor fuel need).2).length = max need 1 →
            ∃ d, ((ctd probe cursor fuel need).2).getLast? = some d
              ∧ (probe d).isSome = true) := by
  intro fuel
  induction fuel with
  | zero =>
    intro cursor need
    refine ⟨by simp [ctd, tdSucc], fun _ => rfl, fun h => ?_⟩
    rw [show (ctd probe cursor 0 need).2 = [] from rfl] at h
    simp [tdSucc] at h
    omega
  | succ f ih =>
    intro cursor need
    cases hp : probe cursor with
    | some t =>
      have hsome : (probe cursor).isSome = true := by rw [hp]; rfl
      by_cases hn : need ≤ 1
      · simp only [ctd, hp, if_pos hn]
        have hone : tdSucc probe [cursor] = [cursor] := by
          simp [tdSucc, List.filter_cons, hsome]
        refine ⟨?_, fun h => ?_, fun _ => ⟨cursor, rfl, hsome⟩⟩
        · rw [hone]
          exact Nat.le_max_right need 1
        · rw [hone] at h
          exact absurd h (by simp; omega)
      · simp only [ctd, hp, if_neg hn]
        obtain ⟨ihle, ihlt, iheq⟩ := ih (cursor - 1) (need - 1)
        have hcons : tdSucc probe (cursor :: (ctd probe (cursor - 1) f (need - 1)).2)
            = cursor :: tdSucc probe (ctd probe (cursor - 1) f (need - 1)).2 := by
          simp [tdSucc, List.filter_cons, hsome]
        rw [hcons]
        rw [show max (need - 1) 1 = need - 1 from by omega] at ihle ihlt iheq
        refine ⟨by simp; omega, fun h => ?_, fun h => ?_⟩
        · rw [List.length_cons] at h
          rw [window, ihlt (by omega)]
        · rw [List.length_cons] at h
          obtain ⟨d, hd, hds⟩ := iheq (by omega)
          cases hr2 : (ctd probe (cursor - 1) f (need - 1)).2 with
          | nil =>
            rw [hr2] at h
            simp [tdSucc] at h
            omega
          | cons x xs =>
            rw [hr2] at hd
            refine ⟨d, ?_, hds⟩
            rw [List.getLast?_cons_cons]
            exact hd
    | none =>
      have hnone : (probe cursor).isSome = false := by rw [hp]; rfl
      simp only [ctd, hp]
      obtain ⟨ihle, ihlt, iheq⟩ := ih (cursor - 1) need
      have hcons : tdSucc probe (cursor :: (ctd probe (cursor - 1) f need).2)
          = tdSucc probe (ctd probe (cursor - 1) f need).2 := by
        simp [tdSucc, List.filter_cons, hnone]
      rw [hcons]
      refine ⟨ihle, fun h => ?_, fun h => ?_⟩
      · rw [window, ihlt h]
      · obtain ⟨d, hd, hds⟩ := iheq h
        cases hr2 : (ctd probe (cursor - 1) f need).2 with
        | nil =>
          rw [hr2] at h
          simp [tdSucc] at h
          have : 1 ≤ max need 1 := Nat.le_max_right _ _
          omega
        | cons x xs =>
          rw [hr2] at hd
          refine ⟨d, ?_, hds⟩
          rw [List.getLast?_cons_cons]
          exact hd

/-- Claim C6: the Resolver probes one day at a time backward from the base
date (its probe log is a prefix of the backward day window), records the
successful probes most-recent-first (the result is the first `count` trading
days of the window, in strictly descending date order), stops at the `count`-th
success or after `lookback` probed days, whichever is first (the log never
holds more than `count` trading days, ends exactly at the `count`-th success
when one is reached, and otherwise is the whole window), and fails exactly
when the window holds fewer than `count` trading days. -/
theorem c6_calendar {α : Type} (probe : Int → Option α) (base : Int) (count lookback : Nat)
    (hcount : 1 ≤ count) :
    (isOkE (compute_trading_dates probe base count lookback) = true ↔
        count ≤ (tdSucc probe (window base lookback)).length)
      ∧ (∀ l, compute_trading_dates probe base count lookback = .ok l →
          l = (successesOf probe (window base lookback)).take count
            ∧ l.map Prod.fst = (tdSucc probe (window base lookback)).take count
            ∧ (l.map Prod.fst).Pairwise (· > ·))
      ∧ probed_dates probe base count lookback <+: window base lookback
      ∧ (tdSucc probe (probed_dates probe base count lookback)).length ≤ count
      ∧ ((tdSucc probe (probed_dates probe base count lookback)).length < count →
          probed_dates probe base count lookback = window base lookback)
      ∧ ((tdSucc probe (probed_dates probe base count lookback)).length = count →
          ∃ d, (probed_dates probe base count lookback).getLast? = some d
            ∧ (probe d).isSome = true) := by
  have hmax : max count 1 = count := by omega
  have hfst := ctd_fst probe lookback base count
  rw [hmax] at hfst
  have hSlen : (successesOf probe (window base lookback)).length
      = (tdSucc probe (window base lookback)).length := by
    rw [← successesOf_fst probe (window base lookback), List.length_map]
  have hlen1 : (ctd probe base lookback count).1.length
      = min count (tdSucc probe (window base lookback)).length := by
    rw [hfst, List.length_take, hSlen]
  obtain ⟨hple, hplt, hpeq⟩ := ctd_probed_spec probe lookback base count
  rw [hmax] at hple hplt hpeq
  refine ⟨?_, ?_, ctd_probed_prefix probe lookback base count, hple, hplt, hpeq⟩
  · by_cases hlt : (ctd probe base lookback count).1.length < count
    · rw [compute_trading_dates, if_pos hlt]
      constructor
      · intro h
        cases h
      · intro h
        rw [hlen1] at hlt
        omega
    · rw [compute_trading_dates, if_neg hlt]
      refine ⟨fun _ => ?_, fun _ => rfl⟩
      rw [hlen1] at hlt
      omega
  · intro l hl
    rw [compute_trading_dates] at hl
    by_cases hlt : (ctd probe base lookback count).1.length < count
    · rw [if_pos hlt] at hl
      cases hl
    · rw [if_neg hlt] at hl
      injection hl with hl
      subst hl
      refine ⟨hfst, ?_, ?_⟩
      · rw [hfst, List.map_take, successesOf_fst]
      · rw [hfst, List.map_take, successesOf_fst]
        have hsub : List.Sublist ((tdSucc probe (window base lookback)).take count)
            (window base lookback) :=
          (List.take_sublist _ _).trans (List.filter_sublist _)
        exact List.Pairwise.sublist hsub (window_pairwise lookback base)

/-- Claim C6 witness: the theorem at the spec's 7-day example (5 trading days,
2 weekend failures, `count = 5`): the resolver succeeds. -/
theorem c6_witness :
    1 ≤ 5 ∧ isOkE (compute_trading_dates probe_example 0 5 7) = true :=
  ⟨by decide, (c6_calendar probe_example 0 5 7 (by decide)).1.mpr (by decide)⟩

/-! ## Claims C7 and C1: the merge loop -/

theorem getD_map_lt {α β : Type} (f : α → β) (l : List α) (i : Nat) (hi : i < l.length)
    (d : α) (d' : β) : (l.map f).getD i d' = f (l.getD i d) := by
  rw [List.getD_eq_getElem?_getD, List.getElem?_map, List.getD_eq_getElem?_getD,
    List.getElem?_eq_getElem hi]
  rfl

theorem extras_length (maps : String → String → Option (String × String)) (cidx : Nat)
    (row : List String) (dss : List String) :
    (dss.flatMap (fun ds => date_pair maps cidx ds row)).length = 2 * dss.length := by
  induction dss with
  | nil => rfl
  | cons d rest ih =>
    rw [List.flatMap_cons, List.length_append, ih,
      show (date_pair maps cidx d row).length = 2 from rfl, List.length_cons]
    omega

theorem getD_two_prefix (a b : String) (l : List String) (j : Nat) :
    ((a :: b :: l).getD (2 * (j + 1)) "" = l.getD (2 * j) "")
      ∧ ((a :: b :: l).getD (2 * (j + 1) + 1) "" = l.getD (2 * j + 1) "") := by
  constructor
  · rw [show 2 * (j + 1) = (2 * j + 1) + 1 from by omega, List.getD_cons_succ,
      List.getD_cons_succ]
  · rw [show 2 * (j + 1) + 1 = (2 * j + 1 + 1) + 1 from by omega, List.getD_cons_succ,
      List.getD_cons_succ]

theorem extras_getD (maps : String → String → Option (String × String)) (cidx : Nat)
    (row : List String) (dss : List String) :
    ∀ j, j < dss.length →
      ((dss.flatMap (fun ds => date_pair maps cidx ds row)).getD (2 * j) ""
          = (date_pair maps cidx (dss.getD j "") row).getD 0 "")
        ∧ ((dss.flatMap (fun ds => date_pair maps cidx ds row)).getD (2 * j + 1) ""
          = (date_pair maps cidx (dss.getD j "") row).getD 1 "") := by
  induction dss with
  | nil =>
    intro j hj
    cases hj
  | cons d rest ih =>
    intro j hj
    cases j with
    | zero => exact ⟨rfl, rfl⟩
    | succ j' =>
      rw [List.flatMap_cons,
        show date_pair maps cidx d row
            = pyOrStr ((maps d (row_code cidx row)).getD ("", "")).1 sentinel
              :: pyOrStr ((maps d (row_code cidx row)).getD ("", "")).2 sentinel :: []
          from rfl,
        List.cons_append, List.cons_append, List.nil_append]
      obtain ⟨ih1, ih2⟩ := ih j' (by simpa using Nat.lt_of_succ_lt_succ (by simpa using hj))
      obtain ⟨hp1, hp2⟩ := getD_two_prefix
        (pyOrStr ((maps d (row_code cidx row)).getD ("", "")).1 sentinel)
        (pyOrStr ((maps d (row_code cidx row)).getD ("", "")).2 sentinel)
        (rest.flatMap (fun ds => date_pair maps cidx ds row)) j'
      rw [List.getD_cons_succ]
      exact ⟨hp1.trans ih1, hp2.trans ih2⟩

theorem merge_row_eq (maps : String → String → Option (String × String)) (cidx : Nat)
    (dss : List String) (rows : List (List String)) (i : Nat) (hi : i < rows.length) :
    (merge_rows maps cidx dss rows).getD i []
      = rows.getD i [] ++ dss.flatMap (fun ds => date_pair maps cidx ds (rows.getD i [])) :=
  getD_map_lt (fun row => row ++ dss.flatMap (fun ds => date_pair maps cidx ds row))
    rows i hi [] []

theorem merge_cell_eq (maps : String → String → Option (String × String)) (cidx : Nat)
    (dss : List String) (rows : List (List String)) (i j : Nat)
    (hi : i < rows.length) (hj : j < dss.length) :
    (((merge_rows maps cidx dss rows).getD i []).getD ((rows.getD i []).length + 2 * j) ""
        = (date_pair maps cidx (dss.getD j "") (rows.getD i [])).getD 0 "")
      ∧ (((merge_rows maps cidx dss rows).getD i []).getD
            ((rows.getD i []).length + 2 * j + 1) ""
        = (date_pair maps cidx (dss.getD j "") (rows.getD i [])).getD 1 "") := by
  rw [merge_row_eq maps cidx dss rows i hi]
  obtain ⟨he1, he2⟩ := extras_getD maps cidx (rows.getD i []) dss j hj
  constructor
  · rw [List.getD_append_right _ _ _ _ (by omega),
      show (rows.getD i []).length + 2 * j - (rows.getD i []).length = 2 * j from by omega]
    exact he1
  · rw [List.getD_append_right _ _ _ _ (by omega),
      show (rows.getD i []).length + 2 * j + 1 - (rows.getD i []).length = 2 * j + 1
        from by omega]
    exact he2

/-- Claim C7: the merged table has exactly the base table's rows in order
(same row count, each base row an unchanged prefix of the corresponding merged
row), exactly `2 × N` cells appended per row, and the cell pair at offset
`2 j` belongs to the `j`-th trading date in the given (recency) order, short
balance first then borrow balance. -/
theorem c7_merge_frame (maps : String → String → Option (String × String)) (cidx : Nat)
    (dss : List String) (rows : List (List String)) :
    (merge_rows maps cidx dss rows).length = rows.length
      ∧ ∀ i, i < rows.length →
          (rows.getD i []) <+: ((merge_rows maps cidx dss rows).getD i [])
            ∧ ((merge_rows maps cidx dss rows).getD i []).length
                = (rows.getD i []).length + 2 * dss.length
            ∧ ∀ j, j < dss.length →
                (((merge_rows maps cidx dss rows).getD i []).getD
                      ((rows.getD i []).length + 2 * j) ""
                    = (date_pair maps cidx (dss.getD j "") (rows.getD i [])).getD 0 "")
                  ∧ (((merge_rows maps cidx dss rows).getD i []).getD
                        ((rows.getD i []).length + 2 * j + 1) ""
                    = (date_pair maps cidx (dss.getD j "") (rows.getD i [])).getD 1 "") := by
  refine ⟨by rw [merge_rows, List.length_map], ?_⟩
  intro i hi
  refine ⟨?_, ?_, fun j hj => merge_cell_eq maps cidx dss rows i j hi hj⟩
  · rw [merge_row_eq maps cidx dss rows i hi]
    exact List.prefix_append _ _
  · rw [merge_row_eq maps cidx dss rows i hi, List.length_append,
      extras_length maps cidx (rows.getD i []) dss]

/-- Claim C7 witness: the frame theorem at a concrete 1-row, 1-date merge. -/
theorem c7_witness :
    (merge_rows maps_example 0 ["d"] [["X"]]).length = 1
      ∧ ((merge_rows maps_example 0 ["d"] [["X"]]).getD 0 []).length
          = (([["X"]] : List (List String)).getD 0 []).length + 2 * 1 :=
  ⟨(c7_merge_frame maps_example 0 ["d"] [["X"]]).1,
    ((c7_merge_frame maps_example 0 ["d"] [["X"]]).2 0 (by decide)).2.1⟩

/-- Claim C1 counterexample: code `"X"` IS present in the date's map with the
value `("", "7")`, yet the first appended cell is the em-dash sentinel, not the
empty string the claim requires: `short_val or "—"` converts a present-but-
empty value into the sentinel as well. -/
theorem c1_cex :
    merge_rows maps_example 0 ["d"] [["X"]] = [["X", "—", "7"]]
      ∧ merge_rows maps_example 0 ["d"] [["X"]] ≠ [["X", "", "7"]] := by
  constructor
  · rfl
  · decide

/-- Claim C1 (amended): an appended cell is the em-dash sentinel exactly when
the base row's code is absent from that date's map OR the looked-up component
is the empty string; a present non-empty component is carried through
unchanged. (The em-dash therefore does NOT distinguish "no data for this code"
from "empty cell in source".) -/
theorem c1_sentinel (maps : String → String → Option (String × String)) (cidx : Nat)
    (dss : List String) (rows : List (List String)) :
    ∀ i, i < rows.length → ∀ j, j < dss.length →
      (maps (dss.getD j "") (row_code cidx (rows.getD i [])) = none →
          ((merge_rows maps cidx dss rows).getD i []).getD
              ((rows.getD i []).length + 2 * j) "" = sentinel
            ∧ ((merge_rows maps cidx dss rows).getD i []).getD
                ((rows.getD i []).length + 2 * j + 1) "" = sentinel)
        ∧ ∀ s b, maps (dss.getD j "") (row_code cidx (rows.getD i [])) = some (s, b) →
            ((merge_rows maps cidx dss rows).getD i []).getD
                ((rows.getD i []).length + 2 * j) ""
              = (if s = "" then sentinel else s)
            ∧ ((merge_rows maps cidx dss rows).getD i []).getD
                ((rows.getD i []).length + 2 * j + 1) ""
              = (if b = "" then sentinel else b) := by
  intro i hi j hj
  obtain ⟨hc0, hc1⟩ := merge_cell_eq maps cidx dss rows i j hi hj
  constructor
  · intro hm
    have hdp : date_pair maps cidx (dss.getD j "") (rows.getD i [])
        = [sentinel, sentinel] := by
      rw [date_pair, hm]
      rfl
    rw [hc0, hc1, hdp]
    exact ⟨rfl, rfl⟩
  · intro s b hm
    have hdp : date_pair maps cidx (dss.getD j "") (rows.getD i [])
        = [pyOrStr s sentinel, pyOrStr b sentinel] := by
      rw [date_pair, hm]
      rfl
    rw [hc0, hc1, hdp]
    exact ⟨rfl, rfl⟩

/-- Claim C1 witness: the amended theorem at the concrete map holding
`("", "7")` for code `"X"`: the short cell collapses to the sentinel, the
borrow cell carries `"7"`. -/
theorem c1_witness :
    ((merge_rows maps_example 0 ["d"] [["X"]]).getD 0 []).getD
        (([["X"]] : List (List String)).getD 0 []).length ""
      = (if ("" : String) = "" then sentinel else "")
      ∧ ((merge_rows maps_example 0 ["d"] [["X"]]).getD 0 []).getD
          ((([["X"]] : List (List String)).getD 0 []).length + 1) ""
        = (if ("7" : String) = "" then sentinel else "7") :=
  (c1_sentinel maps_example 0 ["d"] [["X"]] 0 (by decide) 0 (by decide)).2 "" "7" (by decide)

end UpdateData
